import Mathlib

/-!
Shallow embedding of `src/experiment/IR_camera_script/IR_script.py`: the
interactive region-selection callbacks, the mode-toggling buttons, and the
live acquisition loop (frame logging, ROI aggregation, status line).
Clicked coordinates and temperature samples are modelled as exact
rationals; Python's `round` (round half to even) and the `'{:.1f}'` /
`'{:.2f}'` format specifiers are embedded explicitly.
-/

/-- Python's `round` to an integer: round half to even, as used both by
`int(round(x))` in the coordinate translation and by fixed-point string
formatting at the scaled position. -/
def pyRound (q : ℚ) : ℤ :=
  let f := ⌊q⌋
  if q - f < 1/2 then f
  else if (1:ℚ)/2 < q - f then f + 1
  else if f % 2 = 0 then f else f + 1

/-- Decimal digit characters of a natural number, most significant first
(the integer-part rendering used by Python string formatting). -/
def natChars (n : Nat) : List Char := Nat.toDigits 10 n

/-- Decimal rendering of a natural number. -/
def natStr (n : Nat) : String := String.mk (natChars n)

/-- Rendering of `'{:.2f}'.format(v)`: round to two decimals (half to
even), then sign, integer digits, a dot, and exactly two fractional
digits. -/
def fmtFixed2 (q : ℚ) : String :=
  let scaled := pyRound (q * 100)
  let a := scaled.natAbs
  let sign : List Char := if scaled < 0 then ['-'] else []
  String.mk (sign ++ natChars (a / 100) ++
    ['.', Nat.digitChar (a % 100 / 10), Nat.digitChar (a % 100 % 10)])

/-- Rendering of `'{:.1f}'.format(v)`. -/
def fmtFixed1 (q : ℚ) : String :=
  let scaled := pyRound (q * 10)
  let a := scaled.natAbs
  let sign : List Char := if scaled < 0 then ['-'] else []
  String.mk (sign ++ natChars (a / 10) ++ ['.', Nat.digitChar (a % 10)])

/-- A stored region, `regions.append({'x': x_min, 'y': y_min, 'width':
width, 'height': height, 'patch': rect})` (IR_script.py line 118).  The
matplotlib patch is an opaque handle to the rendering collaborator and
carries no data, so it is not modelled. -/
structure Region where
  x : ℚ
  y : ℚ
  width : ℚ
  height : ℚ
  deriving DecidableEq

/-- The module-level mutable state of the script (lines 11-16): the region
list, the pending first click and the two mode flags. -/
structure RMState where
  regions : List Region
  currentClick : Option (ℚ × ℚ)
  selectionMode : Bool
  liveMode : Bool
  deriving DecidableEq

/-- The initial state (lines 12-15): no regions, no pending click,
selection mode on, live mode off. -/
def initState : RMState := ⟨[], none, true, false⟩

/-- A mouse event as `on_click` sees it: whether it hit the image axes
(`event.inaxes != ax_img`, line 85) and its possibly missing data
coordinates. -/
structure ClickEvent where
  inAxes : Bool
  xdata : Option ℚ
  ydata : Option ℚ

/-- The console messages printed by `on_click` (lines 94, 106, 110, 120),
used as the callback's observable signal. -/
inductive ClickSignal where
  | ignored
  | firstCorner (x y : ℚ)
  | invalidRegion
  | limitReached
  | regionAdded (x y width height : ℚ)
  deriving DecidableEq

/-- `max_regions = 4` (line 16). -/
def max_regions : Nat := 4

/-- Second-click handling inside `on_click` (lines 95-121): min/max
bounding box of the two corners, zero-size rejection, region-limit
rejection, append plus clearing of the pending corner. -/
def secondClick (s : RMState) (p : ℚ × ℚ) (x y : ℚ) : RMState × ClickSignal :=
  let xmin := min p.1 x
  let xmax := max p.1 x
  let ymin := min p.2 y
  let ymax := max p.2 y
  let width := xmax - xmin
  let height := ymax - ymin
  if width = 0 ∨ height = 0 then ({ s with currentClick := none }, .invalidRegion)
  else if max_regions ≤ s.regions.length then ({ s with currentClick := none }, .limitReached)
  else ({ s with regions := s.regions ++ [⟨xmin, ymin, width, height⟩], currentClick := none },
        .regionAdded xmin ymin width height)

/-- `on_click` (lines 80-121). -/
def on_click (s : RMState) (e : ClickEvent) : RMState × ClickSignal :=
  if s.selectionMode = false ∨ s.liveMode = true then (s, .ignored)
  else if e.inAxes = false then (s, .ignored)
  else
    match e.xdata, e.ydata with
    | some x, some y =>
      if x < 0 ∨ 31 < x ∨ y < 0 ∨ 23 < y then (s, .ignored)
      else
        match s.currentClick with
        | none => ({ s with currentClick := some (x, y) }, .firstCorner x y)
        | some p => secondClick s p x y
    | _, _ => (s, .ignored)

/-- `start_live_callback` (lines 123-138): toggles `live_mode` and sets
`selection_mode` to the opposite value; the pending click is untouched. -/
def start_live_callback (s : RMState) : RMState :=
  if s.liveMode = false then { s with liveMode := true, selectionMode := false }
  else { s with liveMode := false, selectionMode := true }

/-- Python runtime errors the embedding tracks. -/
inductive PyError where
  | nameError
  | sensorError
  deriving DecidableEq

/-- `reset_regions_callback` (lines 140-148).  The loop body
`rg['patch'].remove()` (line 144) reads the never-defined name `rg`, so
the first iteration raises `NameError` whenever at least one region
exists and the callback aborts before clearing anything; with no regions
the loop body never runs, `regions.clear()` is a no-op and the pending
click is cleared. -/
def reset_regions_callback (s : RMState) : Except PyError RMState :=
  match s.regions with
  | [] => .ok { s with regions := [], currentClick := none }
  | _ :: _ => .error .nameError

/-- The state after pressing the reset button: on the `NameError` path the
exception propagates out of the callback (matplotlib logs it) and the
module state is left unchanged. -/
def resetEffect (s : RMState) : RMState :=
  match reset_regions_callback s with
  | .ok t => t
  | .error _ => s

/-- `edit_regions_callback` (lines 150-159): forces selection mode on and
live mode off; the pending click is untouched. -/
def edit_regions_callback (s : RMState) : RMState :=
  { s with liveMode := false, selectionMode := true }

/-- States reachable from the initial state through the UI callbacks. -/
inductive Reachable : RMState → Prop
  | init : Reachable initState
  | click {s : RMState} (e : ClickEvent) : Reachable s → Reachable (on_click s e).1
  | startLive {s : RMState} : Reachable s → Reachable (start_live_callback s)
  | edit {s : RMState} : Reachable s → Reachable (edit_regions_callback s)
  | reset {s : RMState} : Reachable s → Reachable (resetEffect s)

/-- Raw-sensor sample lookup: `data_array = np.reshape(frame, (24, 32))`
(line 180), so row `r`, column `c` holds flat sample `32*r + c`. -/
def frameAt (f : Nat → ℚ) (r c : Nat) : ℚ := f (32 * r + c)

/-- The samples of the numpy slice `data_array[ry0:ry1, rx0:rx1]`
(line 221) in row-major order; numpy slices are half-open. -/
def roiValues (f : Nat → ℚ) (ry0 ry1 rx0 rx1 : Nat) : List ℚ :=
  (List.range (ry1 - ry0)).flatMap fun i =>
    (List.range (rx1 - rx0)).map fun j => frameAt f (ry0 + i) (rx0 + j)

/-- `raw_x_min = int(round(31 - (x_disp + width)))` (line 209). -/
def rawXMin (reg : Region) : ℤ := pyRound (31 - (reg.x + reg.width))

/-- `raw_x_max = int(round(31 - x_disp))` (line 210). -/
def rawXMax (reg : Region) : ℤ := pyRound (31 - reg.x)

/-- `raw_y_min = int(round(y_disp))` (line 211). -/
def rawYMin (reg : Region) : ℤ := pyRound reg.y

/-- `raw_y_max = int(round(y_disp + height))` (line 212). -/
def rawYMax (reg : Region) : ℤ := pyRound (reg.y + reg.height)

/-- `raw_x_min = max(0, raw_x_min)` (line 214). -/
def clampedXMin (reg : Region) : ℤ := max 0 (rawXMin reg)

/-- `raw_x_max = min(31, raw_x_max)` (line 215). -/
def clampedXMax (reg : Region) : ℤ := min 31 (rawXMax reg)

/-- `raw_y_min = max(0, raw_y_min)` (line 216). -/
def clampedYMin (reg : Region) : ℤ := max 0 (rawYMin reg)

/-- `raw_y_max = min(23, raw_y_max)` (line 217). -/
def clampedYMax (reg : Region) : ℤ := min 23 (rawYMax reg)

/-- ROI aggregation for one region (lines 209-222): translate display
coordinates to raw indices, clamp, report `float('nan')` for an empty or
inverted window, otherwise `np.mean` of the slice. -/
def roiAggregate (reg : Region) (f : Nat → ℚ) : Option ℚ :=
  if clampedXMax reg ≤ clampedXMin reg ∨ clampedYMax reg ≤ clampedYMin reg then none
  else
    let vals := roiValues f (clampedYMin reg).toNat (clampedYMax reg).toNat
      (clampedXMin reg).toNat (clampedXMax reg).toNat
    some (vals.sum / vals.length)

/-- Rendering of a ROI average in the status line: `'{:.2f}'.format` of
the mean, or the text Python prints for `float('nan')`. -/
def fmtAgg : Option ℚ → String
  | none => "nan"
  | some q => fmtFixed2 q

/-- One `info_str` fragment, `f"Region {i+1}: {roi_avg:.2f} °C   "`
(line 223). -/
def regionEntry (i : Nat) (agg : Option ℚ) : String :=
  "Region " ++ natStr (i + 1) ++ ": " ++ fmtAgg agg ++ " °C   "

/-- The per-region fragments of `info_str` in creation order
(`for i, reg in enumerate(regions)`, line 203). -/
def roiEntriesFrom (f : Nat → ℚ) : Nat → List Region → List String
  | _, [] => []
  | i, r :: rest => regionEntry i (roiAggregate r f) :: roiEntriesFrom f (i + 1) rest

/-- Left-to-right concatenation, mirroring the repeated `info_str +=`. -/
def strConcat : List String → String
  | [] => ""
  | s :: rest => s ++ strConcat rest

/-- The capacity tail of `info_str` (line 231); `estimated_seconds` and
`estimated_hours` are computed once at startup (lines 34-39) and never
reassigned. -/
def capacityStr (es eh : ℚ) : String :=
  "\nRecording capacity: " ++ fmtFixed1 es ++ " s (~" ++ fmtFixed2 eh ++ " h)"

/-- The full status line `info_str` (lines 202-231). -/
def infoStr (regs : List Region) (f : Nat → ℚ) (es eh : ℚ) : String :=
  "ROI Averages:\n" ++ strConcat (roiEntriesFrom f 0 regs) ++ capacityStr es eh

/-- The 768 field strings of one log record,
`','.join(['{:.2f}'.format(val) for val in data_array.flatten()])`
(line 184). -/
def logValues (f : Nat → ℚ) : List String :=
  (List.range 768).map fun i => fmtFixed2 (f i)

/-- One log record, `f"{timestamp} {pixel_values_str}\n"` (line 185). -/
def logLine (ts : String) (f : Nat → ℚ) : String :=
  ts ++ " " ++ String.intercalate "," (logValues f) ++ "\n"

/-- Operations performed on the append-only log file. -/
inductive SinkOp where
  | write (line : String)
  | flush
  deriving DecidableEq

/-- One iteration of the `while True` loop (lines 174-244) as seen from
outside: either live mode is off, or it is on and the sensor fetch either
fails or delivers a frame with a timestamp. -/
inductive TickInput where
  | notLive
  | live (fetch : Except PyError (Nat → ℚ)) (ts : String)

/-- The observable effect of one loop iteration. -/
structure TickEffect where
  fetched : Bool
  sinkOps : List SinkOp
  statusText : Option String
  errorLogged : Bool
  delay : ℚ
  deriving DecidableEq

/-- One iteration of the main loop (lines 174-244): an idle tick only
pauses 0.1 s; an exception is caught at the tick boundary (lines 240-242),
printed, and followed by `time.sleep(0.1)`; a successful tick writes one
log line, flushes, republishes `info_str`, and pauses 0.001 s. -/
def liveTick (regs : List Region) (es eh : ℚ) : TickInput → TickEffect
  | .notLive => ⟨false, [], none, false, 1/10⟩
  | .live (.error _) _ => ⟨true, [], none, true, 1/10⟩
  | .live (.ok f) ts =>
      ⟨true, [.write (logLine ts f), .flush], some (infoStr regs f es eh), false, 1/1000⟩

/-- The acquisition loop over a finite sequence of tick inputs. -/
def runLoop (regs : List Region) (es eh : ℚ) (inputs : List TickInput) : List TickEffect :=
  inputs.map (liveTick regs es eh)

/-- A frame with one hot sample at raw row 5, column 10 and 20.0 °C
everywhere else. -/
def hotFrame (v : ℚ) : Nat → ℚ := fun i => if i = 32 * 5 + 10 then v else 20

/-- The frame of the spec's worked example: the hot sample is 37.2 °C. -/
def exFrame : Nat → ℚ := hotFrame 37.2

/-- A frame whose example-region aggregate is 28.55 °C. -/
def exFrame4 : Nat → ℚ := hotFrame 37.1

/-- The region of the worked example: display rectangle `x=20, y=5,
width=2, height=1`. -/
def exRegion : Region := ⟨20, 5, 2, 1⟩

/-- Well-formedness of a stored region in display space. -/
def RegionWF (r : Region) : Prop :=
  0 ≤ r.x ∧ r.x + r.width ≤ 31 ∧ 0 ≤ r.y ∧ r.y + r.height ≤ 23 ∧ 0 < r.width ∧ 0 < r.height

/-- Well-formedness of the manager state: all stored regions and any
pending click lie inside the display bounds. -/
def StateWF (s : RMState) : Prop :=
  (∀ r ∈ s.regions, RegionWF r) ∧
  (∀ p : ℚ × ℚ, s.currentClick = some p → 0 ≤ p.1 ∧ p.1 ≤ 31 ∧ 0 ≤ p.2 ∧ p.2 ≤ 23)

/-- An event `on_click` must ignore: missing or out-of-bounds display
coordinates (line 90). -/
def BadEvent (e : ClickEvent) : Prop :=
  e.xdata = none ∨ e.ydata = none ∨
  ∃ x y, e.xdata = some x ∧ e.ydata = some y ∧ (x < 0 ∨ 31 < x ∨ y < 0 ∨ 23 < y)

/-- A bounding-box side is zero exactly when the two coordinates agree. -/
theorem bbox_side_ne_zero {a b : ℚ} (h : a ≠ b) : max a b - min a b ≠ 0 := by
  rw [max_sub_min_eq_abs, abs_ne_zero, sub_ne_zero]
  exact h.symm

/-- C1: when a pending in-bounds first corner exists, the second in-bounds
click with a non-degenerate bounding box and fewer than 4 stored regions
appends exactly one region whose fields are the min/max bounding rectangle
of the two points, clears the pending corner, and signals the added
region's bounds. -/
theorem C1_second_click_appends (s : RMState) (x0 y0 x y : ℚ)
    (hsel : s.selectionMode = true) (hlive : s.liveMode = false)
    (hc : s.currentClick = some (x0, y0))
    (hx0l : 0 ≤ x0) (hx0r : x0 ≤ 31) (hy0l : 0 ≤ y0) (hy0r : y0 ≤ 23)
    (hxl : 0 ≤ x) (hxr : x ≤ 31) (hyl : 0 ≤ y) (hyr : y ≤ 23)
    (hxne : x0 ≠ x) (hyne : y0 ≠ y)
    (hlen : s.regions.length < max_regions) :
    on_click s ⟨true, some x, some y⟩ =
      ({ s with
          regions := s.regions ++
            [⟨min x0 x, min y0 y, max x0 x - min x0 x, max y0 y - min y0 y⟩],
          currentClick := none },
        .regionAdded (min x0 x) (min y0 y) (max x0 x - min x0 x) (max y0 y - min y0 y)) := by
  unfold on_click
  rw [if_neg (by simp [hsel, hlive])]
  rw [if_neg (by simp)]
  simp only [hc]
  unfold secondClick
  rw [if_neg (by push_neg; exact ⟨hxl, hxr, hyl, hyr⟩)]
  rw [if_neg (by push_neg; exact ⟨bbox_side_ne_zero hxne, bbox_side_ne_zero hyne⟩)]
  rw [if_neg (Nat.not_le.mpr hlen)]

/-- C1 witness: a concrete two-click run through `on_click`. -/
theorem C1_second_click_appends_witness :
    on_click ⟨[], some (3, 4), true, false⟩ ⟨true, some 1, some 2⟩ =
      (⟨[⟨min 3 1, min 4 2, max 3 1 - min 3 1, max 4 2 - min 4 2⟩], none, true, false⟩,
        .regionAdded (min 3 1) (min 4 2) (max 3 1 - min 3 1) (max 4 2 - min 4 2)) :=
  C1_second_click_appends ⟨[], some (3, 4), true, false⟩ 3 4 1 2 rfl rfl rfl
    (by decide) (by decide) (by decide) (by decide) (by decide) (by decide)
    (by decide) (by decide) (by decide) (by decide) (by decide)

/-- C3: the claim is right and the code is wrong.  With one stored region,
`reset_regions_callback` raises `NameError` (its loop body reads the
undefined name `rg`, line 144) instead of clearing the regions; with no
stored region — e.g. right after a single first click — the loop body is
never reached and the reset succeeds, leaving zero regions and no pending
corner. -/
theorem C3_reset_raises :
    reset_regions_callback ⟨[⟨1, 1, 2, 2⟩], some (5, 5), true, false⟩ = .error .nameError
    ∧ reset_regions_callback (on_click initState ⟨true, some 5, some 5⟩).1 =
        .ok ⟨[], none, true, false⟩ :=
  ⟨rfl, rfl⟩

/-- C5 counterexample: after a first click, starting live mode leaves the
pending corner in place; stopping live mode and clicking again completes a
region out of the two clicks made on opposite sides of the mode
transitions — so the pending corner is not cleared on mode exit and the
two clicks can be combined. -/
theorem C5_counterexample :
    (start_live_callback ⟨[], some (1, 1), true, false⟩).currentClick = some (1, 1)
    ∧ (on_click (start_live_callback (start_live_callback ⟨[], some (1, 1), true, false⟩))
        ⟨true, some 3, some 3⟩).1.regions = [⟨1, 1, 2, 2⟩] := by
  refine ⟨rfl, ?_⟩
  have h1 : start_live_callback (start_live_callback ⟨[], some (1, 1), true, false⟩) =
      ⟨[], some (1, 1), true, false⟩ := rfl
  rw [h1]
  unfold on_click secondClick
  norm_num [max_regions]

/-- C5 amended: neither `start_live_callback` nor `edit_regions_callback`
clears the pending first-click corner — both leave it unchanged, so a
first click made before a mode transition can be combined with a click
made after it; `edit_regions_callback` is idempotent. -/
theorem C5_pending_preserved (s : RMState) :
    (start_live_callback s).currentClick = s.currentClick
    ∧ (edit_regions_callback s).currentClick = s.currentClick
    ∧ edit_regions_callback (edit_regions_callback s) = edit_regions_callback s := by
  refine ⟨?_, rfl, rfl⟩
  unfold start_live_callback
  split <;> rfl

/-- Any single callback keeps the region count at or below the cap. -/
theorem on_click_length_le (s : RMState) (e : ClickEvent)
    (h : s.regions.length ≤ max_regions) :
    (on_click s e).1.regions.length ≤ max_regions := by
  unfold on_click secondClick
  split
  · exact h
  split
  · exact h
  rcases e.xdata with _ | x
  · exact h
  rcases e.ydata with _ | y
  · exact h
  simp only []
  split
  · exact h
  rcases hc : s.currentClick with _ | p
  · simpa using h
  simp only []
  split
  · exact h
  split
  · exact h
  rename_i hlimit
  simp only [List.length_append, List.length_singleton]
  omega

/-- C6: the 4-region cap is preserved by every callback, and a completing
second click made while 4 regions exist leaves the region set unchanged,
signals that the limit is reached, and discards the pending corner. -/
theorem C6_region_cap (s : RMState) (hle : s.regions.length ≤ max_regions) :
    (∀ e : ClickEvent, (on_click s e).1.regions.length ≤ max_regions)
    ∧ (start_live_callback s).regions.length ≤ max_regions
    ∧ (edit_regions_callback s).regions.length ≤ max_regions
    ∧ (resetEffect s).regions.length ≤ max_regions
    ∧ (∀ (p : ℚ × ℚ) (x y : ℚ), s.regions.length = max_regions →
        s.currentClick = some p → s.selectionMode = true → s.liveMode = false →
        0 ≤ x → x ≤ 31 → 0 ≤ y → y ≤ 23 → p.1 ≠ x → p.2 ≠ y →
        on_click s ⟨true, some x, some y⟩ = ({ s with currentClick := none }, .limitReached)) := by
  refine ⟨fun e => on_click_length_le s e hle, ?_, hle, ?_, ?_⟩
  · unfold start_live_callback
    split <;> exact hle
  · unfold resetEffect reset_regions_callback
    cases hreg : s.regions with
    | nil => simp
    | cons a l => exact hle
  · intro p x y hfull hc hsel hlive hxl hxr hyl hyr hxne hyne
    unfold on_click
    rw [if_neg (by simp [hsel, hlive])]
    rw [if_neg (by simp)]
    simp only [hc]
    unfold secondClick
    rw [if_neg (by push_neg; exact ⟨hxl, hxr, hyl, hyr⟩)]
    rw [if_neg (by push_neg; exact ⟨bbox_side_ne_zero hxne, bbox_side_ne_zero hyne⟩)]
    rw [if_pos (le_of_eq hfull.symm)]

/-- C6 witness: with four stored regions, a valid completing click is
rejected with the limit signal and the pending corner is discarded. -/
theorem C6_region_cap_witness :
    on_click ⟨[⟨1, 1, 2, 2⟩, ⟨4, 1, 2, 2⟩, ⟨7, 1, 2, 2⟩, ⟨10, 1, 2, 2⟩],
        some (1, 1), true, false⟩ ⟨true, some 3, some 3⟩ =
      (⟨[⟨1, 1, 2, 2⟩, ⟨4, 1, 2, 2⟩, ⟨7, 1, 2, 2⟩, ⟨10, 1, 2, 2⟩], none, true, false⟩,
        .limitReached) := by
  have h := C6_region_cap ⟨[⟨1, 1, 2, 2⟩, ⟨4, 1, 2, 2⟩, ⟨7, 1, 2, 2⟩, ⟨10, 1, 2, 2⟩],
    some (1, 1), true, false⟩ (by decide)
  exact h.2.2.2.2 (1, 1) 3 3 rfl rfl rfl rfl (by decide) (by decide) (by decide) (by decide)
    (by decide) (by decide)

/-- An event with missing coordinates (x) is ignored without touching the
state. -/
theorem on_click_xdata_none (s : RMState) (ia : Bool) (yd : Option ℚ) :
    on_click s ⟨ia, none, yd⟩ = (s, .ignored) := by
  unfold on_click
  split
  · rfl
  split
  · rfl
  cases yd <;> rfl

/-- An event with missing coordinates (y) is ignored without touching the
state. -/
theorem on_click_ydata_none (s : RMState) (ia : Bool) (xd : Option ℚ) :
    on_click s ⟨ia, xd, none⟩ = (s, .ignored) := by
  unfold on_click
  split
  · rfl
  split
  · rfl
  cases xd <;> rfl

/-- An event with out-of-bounds coordinates is ignored without touching
the state. -/
theorem on_click_oob (s : RMState) (ia : Bool) (x y : ℚ)
    (h : x < 0 ∨ 31 < x ∨ y < 0 ∨ 23 < y) :
    on_click s ⟨ia, some x, some y⟩ = (s, .ignored) := by
  unfold on_click
  split
  · rfl
  split
  · rfl
  exact if_pos h

/-- `on_click` preserves well-formedness of the state. -/
theorem stateWF_on_click (s : RMState) (e : ClickEvent) (h : StateWF s) :
    StateWF (on_click s e).1 := by
  obtain ⟨ia, xd, yd⟩ := e
  unfold on_click
  split
  · exact h
  split
  · exact h
  rcases xd with _ | x
  · exact h
  rcases yd with _ | y
  · exact h
  simp only []
  split
  · exact h
  rename_i hin
  push_neg at hin
  obtain ⟨hxl, hxr, hyl, hyr⟩ := hin
  rcases hc : s.currentClick with _ | p
  · show StateWF ({ s with currentClick := some (x, y) } : RMState)
    refine ⟨h.1, ?_⟩
    rintro q hq
    rw [Option.some.injEq] at hq
    subst hq
    exact ⟨hxl, hxr, hyl, hyr⟩
  · show StateWF (secondClick s p x y).1
    simp only [secondClick]
    split_ifs with hwz hlim
    · exact ⟨h.1, by simp⟩
    · exact ⟨h.1, by simp⟩
    push_neg at hwz
    refine ⟨?_, by simp⟩
    intro r hr
    rw [List.mem_append] at hr
    rcases hr with hr | hr
    · exact h.1 r hr
    · rw [List.mem_singleton] at hr
      subst hr
      have hp := h.2 p hc
      have hxeq : min p.1 x + (max p.1 x - min p.1 x) = max p.1 x := by ring
      have hyeq : min p.2 y + (max p.2 y - min p.2 y) = max p.2 y := by ring
      exact ⟨le_min hp.1 hxl,
        by rw [show (⟨min p.1 x, min p.2 y, max p.1 x - min p.1 x, max p.2 y - min p.2 y⟩ :
            Region).x + (⟨min p.1 x, min p.2 y, max p.1 x - min p.1 x,
            max p.2 y - min p.2 y⟩ : Region).width = max p.1 x from hxeq]
           exact max_le hp.2.1 hxr,
        le_min hp.2.2.1 hyl,
        by rw [show (⟨min p.1 x, min p.2 y, max p.1 x - min p.1 x, max p.2 y - min p.2 y⟩ :
            Region).y + (⟨min p.1 x, min p.2 y, max p.1 x - min p.1 x,
            max p.2 y - min p.2 y⟩ : Region).height = max p.2 y from hyeq]
           exact max_le hp.2.2.2 hyr,
        lt_of_le_of_ne (sub_nonneg.mpr min_le_max) (Ne.symm hwz.1),
        lt_of_le_of_ne (sub_nonneg.mpr min_le_max) (Ne.symm hwz.2)⟩

/-- `start_live_callback` preserves well-formedness. -/
theorem stateWF_startLive (s : RMState) (h : StateWF s) :
    StateWF (start_live_callback s) := by
  unfold start_live_callback
  split <;> exact ⟨h.1, h.2⟩

/-- `edit_regions_callback` preserves well-formedness. -/
theorem stateWF_edit (s : RMState) (h : StateWF s) :
    StateWF (edit_regions_callback s) := ⟨h.1, h.2⟩

/-- The reset button (including its `NameError` path) preserves
well-formedness. -/
theorem stateWF_reset (s : RMState) (h : StateWF s) : StateWF (resetEffect s) := by
  unfold resetEffect reset_regions_callback
  cases hreg : s.regions with
  | nil => exact ⟨by simp, by simp⟩
  | cons a l => exact h

/-- Every state reachable through the UI callbacks is well-formed. -/
theorem reachable_stateWF {s : RMState} (h : Reachable s) : StateWF s := by
  induction h with
  | init => exact ⟨by simp [initState], by simp [initState]⟩
  | click e _ ih => exact stateWF_on_click _ e ih
  | startLive _ ih => exact stateWF_startLive _ ih
  | edit _ ih => exact stateWF_edit _ ih
  | reset _ ih => exact stateWF_reset _ ih

/-- C10: `on_click` silently ignores events with missing or out-of-bounds
coordinates (the state and the signal show no effect), and consequently
every region stored in any reachable state lies inside the display
bounds with strictly positive width and height. -/
theorem C10_click_bounds :
    (∀ (s : RMState) (e : ClickEvent), BadEvent e → on_click s e = (s, .ignored))
    ∧ (∀ s : RMState, Reachable s → ∀ r ∈ s.regions,
        0 ≤ r.x ∧ r.x + r.width ≤ 31 ∧ 0 ≤ r.y ∧ r.y + r.height ≤ 23 ∧
        0 < r.width ∧ 0 < r.height) := by
  constructor
  · rintro s ⟨ia, xd, yd⟩ hbad
    rcases hbad with hx | hy | ⟨x, y, hx, hy, hoob⟩
    · simp only at hx
      subst hx
      exact on_click_xdata_none s ia yd
    · simp only at hy
      subst hy
      exact on_click_ydata_none s ia xd
    · simp only at hx hy
      subst hx
      subst hy
      exact on_click_oob s ia x y hoob
  · intro s hs r hr
    exact reachable_stateWF hs |>.1 r hr

/-- C10 witness: a concrete ignored bad event, and the region bounds of a
concrete reachable state holding one region. -/
theorem C10_click_bounds_witness :
    on_click initState ⟨true, none, some 5⟩ = (initState, .ignored)
    ∧ (∀ r ∈ (on_click (on_click initState ⟨true, some 3, some 4⟩).1
          ⟨true, some 1, some 2⟩).1.regions,
        0 ≤ r.x ∧ r.x + r.width ≤ 31 ∧ 0 ≤ r.y ∧ r.y + r.height ≤ 23 ∧
        0 < r.width ∧ 0 < r.height) :=
  ⟨C10_click_bounds.1 initState ⟨true, none, some 5⟩ (Or.inl rfl),
   C10_click_bounds.2 _ (Reachable.click _ (Reachable.click _ Reachable.init))⟩

/-- The slice holds one sample per (row, column) pair of the window. -/
theorem roiValues_length (f : Nat → ℚ) (ry0 ry1 rx0 rx1 : Nat) :
    (roiValues f ry0 ry1 rx0 rx1).length = (ry1 - ry0) * (rx1 - rx0) := by
  unfold roiValues
  induction ry1 - ry0 with
  | zero => simp
  | succ k ih => simp [List.range_succ, ih, Nat.succ_mul]

/-- C7: the aggregate is reported as not-a-number exactly when, after
clamping, an upper index bound fails to exceed the lower one; in
particular any region whose translated window lies fully outside the raw
index bounds gets a not-a-number aggregate; and whenever a mean is
produced, the window was non-empty and non-inverted on both axes. -/
theorem C7_nan_guard (reg : Region) (f : Nat → ℚ) :
    (roiAggregate reg f = none ↔
      (clampedXMax reg ≤ clampedXMin reg ∨ clampedYMax reg ≤ clampedYMin reg))
    ∧ ((rawXMax reg ≤ 0 ∨ 31 ≤ rawXMin reg ∨ rawYMax reg ≤ 0 ∨ 23 ≤ rawYMin reg) →
        roiAggregate reg f = none)
    ∧ (∀ m : ℚ, roiAggregate reg f = some m →
        clampedXMin reg < clampedXMax reg ∧ clampedYMin reg < clampedYMax reg ∧
        0 < (roiValues f (clampedYMin reg).toNat (clampedYMax reg).toNat
              (clampedXMin reg).toNat (clampedXMax reg).toNat).length ∧
        m = (roiValues f (clampedYMin reg).toNat (clampedYMax reg).toNat
              (clampedXMin reg).toNat (clampedXMax reg).toNat).sum /
            (roiValues f (clampedYMin reg).toNat (clampedYMax reg).toNat
              (clampedXMin reg).toNat (clampedXMax reg).toNat).length) := by
  refine ⟨?_, ?_, ?_⟩
  · unfold roiAggregate
    split_ifs with hcond
    · simp [hcond]
    · simp [hcond]
  · intro hout
    unfold roiAggregate
    rw [if_pos]
    unfold clampedXMin clampedXMax clampedYMin clampedYMax at *
    omega
  · intro m hm
    unfold roiAggregate at hm
    split_ifs at hm with hcond
    push_neg at hcond
    rw [Option.some.injEq] at hm
    have hx : clampedXMin reg < clampedXMax reg := hcond.1
    have hy : clampedYMin reg < clampedYMax reg := hcond.2
    have hx0 : 0 ≤ clampedXMin reg := le_max_left 0 _
    have hy0 : 0 ≤ clampedYMin reg := le_max_left 0 _
    refine ⟨hx, hy, ?_, hm.symm⟩
    rw [roiValues_length]
    have h1 : 0 < (clampedYMax reg).toNat - (clampedYMin reg).toNat := by omega
    have h2 : 0 < (clampedXMax reg).toNat - (clampedXMin reg).toNat := by omega
    exact Nat.mul_pos h1 h2

/-- Rounding an integer value is the identity. -/
theorem pyRound_intCast (n : ℤ) : pyRound (n : ℚ) = n := by
  simp only [pyRound]
  rw [Int.floor_intCast, sub_self]
  rw [if_pos (by norm_num : (0:ℚ) < 1/2)]

/-- Rounding a natural value is the identity. -/
theorem pyRound_natCast (n : ℕ) : pyRound (n : ℚ) = (n : ℤ) := by
  have h : ((n:ℤ) : ℚ) = (n : ℚ) := by push_cast; ring
  rw [← h, pyRound_intCast]

/-- Explicit form of `'{:.2f}'` once the scaled rounding is known and
non-negative. -/
theorem fmtFixed2_ofRound (q : ℚ) (n : ℕ) (h : pyRound (q * 100) = (n : ℤ)) :
    fmtFixed2 q = String.mk (natChars (n / 100) ++
      ['.', Nat.digitChar (n % 100 / 10), Nat.digitChar (n % 100 % 10)]) := by
  simp only [fmtFixed2]
  rw [h]
  rw [if_neg (not_lt.mpr (Int.natCast_nonneg n))]
  simp [Int.natAbs_ofNat]

/-- Explicit form of `'{:.1f}'` once the scaled rounding is known and
non-negative. -/
theorem fmtFixed1_ofRound (q : ℚ) (n : ℕ) (h : pyRound (q * 10) = (n : ℤ)) :
    fmtFixed1 q = String.mk (natChars (n / 10) ++ ['.', Nat.digitChar (n % 10)]) := by
  simp only [fmtFixed1]
  rw [h]
  rw [if_neg (not_lt.mpr (Int.natCast_nonneg n))]
  simp [Int.natAbs_ofNat]

/-- The raw index window of the worked example region: columns `[9, 11]`,
rows `[5, 6]`, unchanged by clamping. -/
theorem exRegion_bounds :
    clampedXMin exRegion = 9 ∧ clampedXMax exRegion = 11 ∧
    clampedYMin exRegion = 5 ∧ clampedYMax exRegion = 6 := by
  refine ⟨?_, ?_, ?_, ?_⟩
  · show max 0 (pyRound (31 - ((20:ℚ) + 2))) = 9
    rw [show (31:ℚ) - (20 + 2) = ((9:ℕ):ℚ) by norm_num, pyRound_natCast]
    decide
  · show min 31 (pyRound (31 - (20:ℚ))) = 11
    rw [show (31:ℚ) - 20 = ((11:ℕ):ℚ) by norm_num, pyRound_natCast]
    decide
  · show max 0 (pyRound ((5:ℚ))) = 5
    rw [show (5:ℚ) = ((5:ℕ):ℚ) by norm_num, pyRound_natCast]
    decide
  · show min 23 (pyRound ((5:ℚ) + 1)) = 6
    rw [show (5:ℚ) + 1 = ((6:ℕ):ℚ) by norm_num, pyRound_natCast]
    decide

/-- Evaluation of the worked example: the slice is a 1-row, 2-column
window, so the aggregate is the mean of the hot sample and one 20.0
sample. -/
theorem roiAgg_hot (v : ℚ) : roiAggregate exRegion (hotFrame v) = some ((20 + v) / 2) := by
  obtain ⟨h1, h2, h3, h4⟩ := exRegion_bounds
  unfold roiAggregate
  rw [h1, h2, h3, h4]
  rw [if_neg (by decide)]
  have hvals : roiValues (hotFrame v) (5:ℤ).toNat (6:ℤ).toNat (9:ℤ).toNat (11:ℤ).toNat
      = [20, v] := by
    unfold roiValues frameAt hotFrame
    simp only [show (5:ℤ).toNat = 5 from rfl, show (6:ℤ).toNat = 6 from rfl,
      show (9:ℤ).toNat = 9 from rfl, show (11:ℤ).toNat = 11 from rfl]
    norm_num [List.range_succ]
  rw [hvals]
  norm_num

/-- C2 counterexample: the code slices half-open windows, so the worked
example aggregates a 1-row by 2-column window with mean 28.6, not the
claimed 6-sample mean (37.2 + 5×20)/6. -/
theorem C2_counterexample :
    roiAggregate exRegion exFrame = some ((143:ℚ)/5)
    ∧ ((143:ℚ)/5 ≠ ((37.2:ℚ) + 5 * 20) / 6) := by
  constructor
  · rw [show exFrame = hotFrame 37.2 from rfl, roiAgg_hot]
    norm_num
  · norm_num

/-- C2 amended: the translated window of the example region is columns
`[9, 11]` and rows `[5, 6]` as computed bounds, and the aggregate is the
mean of the half-open slice rows `[5, 6)` by columns `[9, 11)` — the 37.2
sample and a single 20.0 sample — namely 28.6. -/
theorem C2_halfopen_window :
    clampedXMin exRegion = 9 ∧ clampedXMax exRegion = 11 ∧
    clampedYMin exRegion = 5 ∧ clampedYMax exRegion = 6 ∧
    roiAggregate exRegion exFrame = some (((37.2:ℚ) + 20) / 2) ∧
    ((37.2:ℚ) + 20) / 2 = 28.6 := by
  obtain ⟨h1, h2, h3, h4⟩ := exRegion_bounds
  refine ⟨h1, h2, h3, h4, ?_, by norm_num⟩
  rw [show exFrame = hotFrame 37.2 from rfl, roiAgg_hot]
  norm_num

/-- A region far to the right of the display translates to a window fully
outside the raw bounds. -/
theorem regOut_outside : rawXMax (⟨40, 5, 1, 1⟩ : Region) ≤ 0 := by
  show pyRound ((31:ℚ) - 40) ≤ 0
  rw [show (31:ℚ) - 40 = ((-9:ℤ):ℚ) by norm_num, pyRound_intCast]
  decide

/-- C7 witness: the worked example produces a mean over a non-empty,
non-inverted window, and a region fully outside the raw bounds gets a
not-a-number aggregate. -/
theorem C7_nan_guard_witness :
    (clampedXMin exRegion < clampedXMax exRegion ∧
      clampedYMin exRegion < clampedYMax exRegion ∧
      0 < (roiValues exFrame (clampedYMin exRegion).toNat (clampedYMax exRegion).toNat
            (clampedXMin exRegion).toNat (clampedXMax exRegion).toNat).length)
    ∧ roiAggregate ⟨40, 5, 1, 1⟩ exFrame = none := by
  have h := (C7_nan_guard exRegion exFrame).2.2 ((20 + 37.2) / 2) (roiAgg_hot 37.2)
  exact ⟨⟨h.1, h.2.1, h.2.2.1⟩,
    (C7_nan_guard ⟨40, 5, 1, 1⟩ exFrame).2.1 (Or.inl regOut_outside)⟩

/-- Digit characters for values below ten are decimal digits. -/
theorem digitChar_isDigit {m : Nat} (h : m < 10) : (Nat.digitChar m).isDigit = true := by
  interval_cases m <;> rfl

/-- Every character produced by the base-10 digit expansion is a decimal
digit. -/
theorem toDigitsCore_isDigit (fuel : Nat) :
    ∀ (n : Nat) (ds : List Char), (∀ c ∈ ds, c.isDigit = true) →
      ∀ c ∈ Nat.toDigitsCore 10 fuel n ds, c.isDigit = true := by
  induction fuel with
  | zero => exact fun n ds hds => hds
  | succ k ih =>
    intro n ds hds
    unfold Nat.toDigitsCore
    have hd : (Nat.digitChar (n % 10)).isDigit = true :=
      digitChar_isDigit (Nat.mod_lt n (by decide))
    have hcons : ∀ c ∈ Nat.digitChar (n % 10) :: ds, c.isDigit = true := by
      intro c hc
      rcases List.mem_cons.mp hc with rfl | hc
      · exact hd
      · exact hds c hc
    show ∀ c ∈ (if n / 10 = 0 then Nat.digitChar (n % 10) :: ds
        else Nat.toDigitsCore 10 k (n / 10) (Nat.digitChar (n % 10) :: ds)),
      c.isDigit = true
    split
    · exact hcons
    · exact ih (n / 10) (Nat.digitChar (n % 10) :: ds) hcons

/-- All characters of the decimal rendering of a natural number are
digits. -/
theorem natChars_isDigit (n : Nat) : ∀ c ∈ natChars n, c.isDigit = true :=
  toDigitsCore_isDigit (n + 1) n [] (by simp)

/-- A decimal digit is not a comma. -/
theorem isDigit_ne_comma {c : Char} (h : c.isDigit = true) : c ≠ ',' := by
  rintro rfl
  exact absurd h (by decide)

/-- A decimal digit is not a dot. -/
theorem isDigit_ne_dot {c : Char} (h : c.isDigit = true) : c ≠ '.' := by
  rintro rfl
  exact absurd h (by decide)

/-- Shape of the `'{:.2f}'` rendering: no comma anywhere, and exactly two
digit characters after the single dot. -/
theorem fmtFixed2_structure (q : ℚ) :
    (',' ∈ (fmtFixed2 q).data → False)
    ∧ ∃ (pre : List Char) (d1 d2 : Char),
        fmtFixed2 q = String.mk (pre ++ ['.', d1, d2])
        ∧ d1.isDigit = true ∧ d2.isDigit = true
        ∧ ('.' ∈ pre → False) ∧ (',' ∈ pre → False) := by
  have ha1 : (pyRound (q * 100)).natAbs % 100 / 10 < 10 := by omega
  have ha2 : (pyRound (q * 100)).natAbs % 100 % 10 < 10 := by omega
  have hsigndot : ∀ c ∈ (if pyRound (q * 100) < 0 then ['-'] else ([] : List Char)),
      c ≠ '.' ∧ c ≠ ',' := by
    split
    · intro c hc
      rw [List.mem_singleton] at hc
      subst hc
      exact ⟨by decide, by decide⟩
    · intro c hc
      exact absurd hc (List.not_mem_nil c)
  have hpredot : ∀ c ∈ (if pyRound (q * 100) < 0 then ['-'] else ([] : List Char)) ++
      natChars ((pyRound (q * 100)).natAbs / 100), c ≠ '.' ∧ c ≠ ',' := by
    intro c hc
    rcases List.mem_append.mp hc with hc | hc
    · exact hsigndot c hc
    · exact ⟨isDigit_ne_dot (natChars_isDigit _ c hc), isDigit_ne_comma (natChars_isDigit _ c hc)⟩
  constructor
  · intro hmem
    simp only [fmtFixed2] at hmem
    rcases List.mem_append.mp hmem with hc | hc
    · exact absurd rfl (hpredot ',' hc).2
    · rcases List.mem_cons.mp hc with h0 | hc
      · exact absurd h0.symm (by decide)
      · rcases List.mem_cons.mp hc with h1 | hc
        · exact absurd h1.symm (isDigit_ne_comma (digitChar_isDigit ha1))
        · rcases List.mem_cons.mp hc with h2 | hc
          · exact absurd h2.symm (isDigit_ne_comma (digitChar_isDigit ha2))
          · exact absurd hc (List.not_mem_nil ',')
  · refine ⟨(if pyRound (q * 100) < 0 then ['-'] else ([] : List Char)) ++
      natChars ((pyRound (q * 100)).natAbs / 100),
      Nat.digitChar ((pyRound (q * 100)).natAbs % 100 / 10),
      Nat.digitChar ((pyRound (q * 100)).natAbs % 100 % 10), rfl,
      digitChar_isDigit ha1, digitChar_isDigit ha2, ?_, ?_⟩
    · intro hdot
      exact absurd rfl (hpredot '.' hdot).1
    · intro hcomma
      exact absurd rfl (hpredot ',' hcomma).2

/-- C8: a successful live tick appends exactly one log line — timestamp,
then the comma-joined field list — and flushes immediately after the
write; the field list has exactly 768 entries, the i-th being the
`'{:.2f}'` rendering of sample i, and each rendering is comma-free with
exactly two digits after its dot. -/
theorem C8_log_record (regs : List Region) (es eh : ℚ) (ts : String) (f : Nat → ℚ) :
    (liveTick regs es eh (.live (.ok f) ts)).sinkOps = [.write (logLine ts f), .flush]
    ∧ (logValues f).length = 768
    ∧ (∀ i : Nat, i < 768 → (logValues f)[i]? = some (fmtFixed2 (f i)))
    ∧ (∀ q : ℚ, (',' ∈ (fmtFixed2 q).data → False)
        ∧ ∃ (pre : List Char) (d1 d2 : Char),
            fmtFixed2 q = String.mk (pre ++ ['.', d1, d2])
            ∧ d1.isDigit = true ∧ d2.isDigit = true
            ∧ ('.' ∈ pre → False) ∧ (',' ∈ pre → False)) := by
  refine ⟨rfl, by simp [logValues], ?_, fun q => fmtFixed2_structure q⟩
  intro i hi
  simp [logValues, List.getElem?_map, List.getElem?_range, hi]

/-- C8 witness: concrete record on an all-20.0 frame. -/
theorem C8_log_record_witness :
    (logValues fun _ => (20:ℚ)).length = 768
    ∧ (logValues fun _ => (20:ℚ))[0]? = some (fmtFixed2 20) := by
  have h := C8_log_record [] 0 0 "t" fun _ => (20:ℚ)
  exact ⟨h.2.1, h.2.2.1 0 (by decide)⟩

/-- C9: the loop processes every tick (splitting the input anywhere splits
the output — no failure terminates it); a tick whose fetch raises is
caught, logged, produces no sink output and is followed by the fixed 0.1 s
delay; a tick taken while not live fetches no frame, writes nothing and
idles for the fixed 0.1 s delay. -/
theorem C9_tick_isolation (regs : List Region) (es eh : ℚ) (inputs : List TickInput) :
    (runLoop regs es eh inputs).length = inputs.length
    ∧ (∀ pre post : List TickInput, inputs = pre ++ post →
        runLoop regs es eh inputs = runLoop regs es eh pre ++ runLoop regs es eh post)
    ∧ (∀ (i : Nat) (err : PyError) (ts : String),
        inputs[i]? = some (.live (.error err) ts) →
        (runLoop regs es eh inputs)[i]? = some ⟨true, [], none, true, 1/10⟩)
    ∧ (∀ i : Nat, inputs[i]? = some .notLive →
        (runLoop regs es eh inputs)[i]? = some ⟨false, [], none, false, 1/10⟩) := by
  refine ⟨by simp [runLoop], ?_, ?_, ?_⟩
  · intro pre post h
    subst h
    simp [runLoop]
  · intro i err ts h
    unfold runLoop
    rw [List.getElem?_map, h]
    rfl
  · intro i h
    unfold runLoop
    rw [List.getElem?_map, h]
    rfl

/-- C9 witness: a two-tick run — one idle tick, one failing fetch — is
fully processed with no sink writes and the fixed delay on both ticks. -/
theorem C9_tick_isolation_witness :
    (runLoop [] 0 0 [.notLive, .live (.error .sensorError) "t"]).length = 2
    ∧ (runLoop [] 0 0 [.notLive, .live (.error .sensorError) "t"])[1]? =
        some ⟨true, [], none, true, 1/10⟩
    ∧ (runLoop [] 0 0 [.notLive, .live (.error .sensorError) "t"])[0]? =
        some ⟨false, [], none, false, 1/10⟩ := by
  have h := C9_tick_isolation [] 0 0 [.notLive, .live (.error .sensorError) "t"]
  exact ⟨h.1, h.2.2.1 1 .sensorError "t" rfl, h.2.2.2 0 rfl⟩

/-- A member of a concatenated string list is an infix of the
concatenation. -/
theorem strConcat_data_infix {s : String} {l : List String} (h : s ∈ l) :
    s.data <:+: (strConcat l).data := by
  induction l with
  | nil => exact absurd h (List.not_mem_nil s)
  | cons a rest ih =>
    rcases List.mem_cons.mp h with rfl | h
    · exact ⟨[], (strConcat rest).data, by simp [strConcat]⟩
    · obtain ⟨u, v, huv⟩ := ih h
      exact ⟨a.data ++ u, v, by
        show a.data ++ u ++ s.data ++ v = (strConcat (a :: rest)).data
        rw [List.append_assoc, List.append_assoc, ← List.append_assoc u, huv]
        rfl⟩

/-- The entry built for index `i` of the region list is a member of the
fragment list. -/
theorem roiEntriesFrom_mem (f : Nat → ℚ) (regs : List Region) :
    ∀ (base i : Nat) (r : Region), regs[i]? = some r →
      regionEntry (base + i) (roiAggregate r f) ∈ roiEntriesFrom f base regs := by
  induction regs with
  | nil =>
    intro base i r h
    simp at h
  | cons a rest ih =>
    intro base i r h
    cases i with
    | zero =>
      rw [List.getElem?_cons_zero, Option.some.injEq] at h
      subst h
      simp [roiEntriesFrom]
    | succ j =>
      rw [List.getElem?_cons_succ] at h
      have hmem := ih (base + 1) j r h
      rw [show base + 1 + j = base + (j + 1) by omega] at hmem
      exact List.mem_cons_of_mem _ hmem

/-- C4 amended: the emitted status line contains the `'{:.2f}'` entry of
every region's aggregate in creation order (two decimal places, not one),
and ends with a capacity tail built only from the startup-computed
estimates, hence re-displayed unchanged on every successful tick. -/
theorem C4_status_line (regs : List Region) (f : Nat → ℚ) (es eh : ℚ) (ts : String)
    (i : Nat) (r : Region) (h : regs[i]? = some r) :
    (regionEntry i (roiAggregate r f)).data <:+: (infoStr regs f es eh).data
    ∧ (capacityStr es eh).data <:+ (infoStr regs f es eh).data
    ∧ (liveTick regs es eh (.live (.ok f) ts)).statusText = some (infoStr regs f es eh) := by
  refine ⟨?_, ?_, rfl⟩
  · have hmem := roiEntriesFrom_mem f regs 0 i r h
    rw [Nat.zero_add] at hmem
    obtain ⟨u, v, huv⟩ := strConcat_data_infix hmem
    refine ⟨"ROI Averages:\n".data ++ u, v ++ (capacityStr es eh).data, ?_⟩
    have hdata : ∀ a b : String, (a ++ b).data = a.data ++ b.data := fun a b => rfl
    have huv' : (strConcat (roiEntriesFrom f 0 regs)).data =
        u ++ ((regionEntry i (roiAggregate r f)).data ++ v) := by
      rw [← huv, List.append_assoc]
    simp only [infoStr, hdata, huv', List.append_assoc]
  · exact ⟨("ROI Averages:\n" ++ strConcat (roiEntriesFrom f 0 regs)).data, rfl⟩

/-- C4 witness: the single-region example instantiated concretely. -/
theorem C4_status_line_witness :
    (regionEntry 0 (roiAggregate exRegion exFrame)).data <:+:
      (infoStr [exRegion] exFrame 100 ((1:ℚ)/36)).data
    ∧ (capacityStr 100 ((1:ℚ)/36)).data <:+ (infoStr [exRegion] exFrame 100 ((1:ℚ)/36)).data := by
  have h := C4_status_line [exRegion] exFrame 100 ((1:ℚ)/36) "t" 0 exRegion rfl
  exact ⟨h.1, h.2.1⟩

/-- The status-line rendering of the 28.55 °C aggregate. -/
theorem fmt2_example : fmtFixed2 ((571:ℚ)/20) = "28.55" := by
  rw [fmtFixed2_ofRound ((571:ℚ)/20) 2855
    (by rw [show ((571:ℚ)/20) * 100 = ((2855:ℕ):ℚ) by norm_num, pyRound_natCast])]
  rfl

/-- The capacity rendering of 100 seconds. -/
theorem fmt1_capacity : fmtFixed1 (100:ℚ) = "100.0" := by
  rw [fmtFixed1_ofRound 100 1000
    (by rw [show ((100:ℚ)) * 10 = ((1000:ℕ):ℚ) by norm_num, pyRound_natCast])]
  rfl

/-- The scaled rounding of the hour estimate 1/36. -/
theorem pyRound_hours : pyRound ((1:ℚ)/36 * 100) = 3 := by
  rw [show ((1:ℚ)/36 * 100) = 25/9 by norm_num]
  simp only [pyRound]
  rw [show ⌊(25:ℚ)/9⌋ = 2 by norm_num]
  rw [if_neg (by norm_num), if_pos (by norm_num)]
  decide

/-- The capacity rendering of 1/36 hours. -/
theorem fmt2_hours : fmtFixed2 ((1:ℚ)/36) = "0.03" := by
  rw [fmtFixed2_ofRound ((1:ℚ)/36) 3 (by rw [pyRound_hours]; rfl)]
  rfl

/-- The example aggregate of the 37.1 °C frame. -/
theorem roiAgg_exFrame4 : roiAggregate exRegion exFrame4 = some ((571:ℚ)/20) := by
  rw [show exFrame4 = hotFrame 37.1 from rfl, roiAgg_hot]
  norm_num

/-- Full evaluation of the status line for the 37.1 °C frame. -/
theorem infoStr_example :
    infoStr [exRegion] exFrame4 100 ((1:ℚ)/36) =
      "ROI Averages:\nRegion 1: 28.55 °C   \nRecording capacity: 100.0 s (~0.03 h)" := by
  have h1 : fmtAgg (roiAggregate exRegion exFrame4) = "28.55" := by
    rw [roiAgg_exFrame4]
    show fmtFixed2 ((571:ℚ)/20) = "28.55"
    exact fmt2_example
  show "ROI Averages:\n" ++ strConcat [regionEntry 0 (roiAggregate exRegion exFrame4)] ++
    capacityStr 100 ((1:ℚ)/36) = _
  unfold regionEntry capacityStr strConcat
  rw [h1, fmt1_capacity, fmt2_hours]
  rfl

set_option maxRecDepth 10000 in
/-- C4 counterexample: the status line renders the aggregate with two
decimal places ("28.55"), and the 1-decimal rounding "28.6" required by
the claim appears nowhere in the line. -/
theorem C4_counterexample :
    infoStr [exRegion] exFrame4 100 ((1:ℚ)/36) =
      "ROI Averages:\nRegion 1: 28.55 °C   \nRecording capacity: 100.0 s (~0.03 h)"
    ∧ ¬ ("28.6".data <:+: (infoStr [exRegion] exFrame4 100 ((1:ℚ)/36)).data) := by
  refine ⟨infoStr_example, ?_⟩
  rw [infoStr_example]
  decide
